import Mathlib

/-!
A verification development for the cas2trn program, a translator of financial
transactions from an arbitrary CSV layout to one canonical CSV layout.

The Go source is shallowly embedded as follows.

The `float64` amounts of the program arise only by parsing decimal strings
(`strconv.ParseFloat`) and by the exact operations `math.Abs` and negation, and
are observed only through sign, comparison with `0.00`, and shortest-form
decimal rendering (`strconv.FormatFloat(f, 'f', -1, 64)`).  On this fragment
IEEE doubles behave exactly like scaled decimal integers, so amounts are
embedded as the type `Dec` below: an integer mantissa and a power-of-ten
exponent.  `strconv.ParseFloat` is modelled on the plain decimal literals this
program consumes (optional sign, digits, optional fraction); exponent, hex,
infinity and not-a-number forms are outside the model.

`time.Parse` is an external library collaborator; it is modelled restricted to
the numeric layout tokens the program's configurations use: the Go reference
layout fragments `2006` (year), `01` (month), `02` (day) and literal separator
characters, formatted back as `YYYY-MM-DD` like `time.DateOnly`.

Go `uint8` configuration fields are embedded as `Nat`; the validator performs
only comparisons, never arithmetic, so no wrap-around is observable.  The
boolean seen-marker array of `areIndexesValid` is embedded as a function
`Nat -> Bool`; the checked variants near the end of the definitions re-model
sequence accesses (both that array and row indexing) with explicit bounds,
returning `none` where Go would fault, for the in-bounds theorems.
-/

/-- An exact scaled-decimal number: value is `m / 10 ^ e`.  Embeds the
`float64` amounts of transact.go, which on this program's inputs and
operations behave exactly like finite decimals. -/
structure Dec where
  m : Int
  e : Nat
deriving DecidableEq, Repr

/-- The record-level error kinds of transact.go: wrong field count, the two
wrapped parse failures, the zero amount, the empty memo and the empty
this-account errors. -/
inductive Err where
  | nFields
  | dateParse
  | floatParse
  | zeroAmount
  | emptyMemo
  | emptyThisAcct
deriving DecidableEq, Repr

/-- Numeric value of a list of decimal digit characters. -/
def digitsVal (l : List Char) : Nat :=
  l.foldl (fun a c => a * 10 + (c.toNat - 48)) 0

/-- Mantissa with sign applied. -/
def signedVal (neg : Bool) (n : Nat) : Int :=
  if neg then -(n : Int) else (n : Int)

/-- ParseFloat64 embeds Go `parseFloat64` / `strconv.ParseFloat` on plain
decimal literals: optional sign, integer digits, optional fraction; at least
one digit overall.  Empty string fails. -/
def parseFloat64 (s : String) : Except Err Dec :=
  let cs := s.toList
  let sgn : Bool × List Char :=
    match cs with
    | '-' :: r => (true, r)
    | '+' :: r => (false, r)
    | _ => (false, cs)
  let ip := sgn.2.takeWhile Char.isDigit
  let rest := sgn.2.dropWhile Char.isDigit
  match rest with
  | [] =>
      if ip.isEmpty then .error .floatParse
      else .ok ⟨signedVal sgn.1 (digitsVal ip), 0⟩
  | '.' :: fr =>
      if fr.all Char.isDigit && !(ip.isEmpty && fr.isEmpty) then
        .ok ⟨signedVal sgn.1 (digitsVal (ip ++ fr)), fr.length⟩
      else .error .floatParse
  | _ => .error .floatParse

/-- Drop trailing decimal zeros from a magnitude and exponent. -/
def stripZeros : Nat → Nat → Nat × Nat
  | n, 0 => (n, 0)
  | n, e + 1 => if n % 10 = 0 then stripZeros (n / 10) e else (n, e + 1)

/-- Left-pad a digit string with zeros to a given width. -/
def padFrac (e : Nat) (s : String) : String :=
  String.mk (List.replicate (e - s.length) '0') ++ s

/-- FmtDec embeds `strconv.FormatFloat(f, 'f', -1, 64)`: the shortest decimal
form of the value, with no exponent and no trailing fractional zeros. -/
def fmtDec (d : Dec) : String :=
  let sign := if d.m < 0 then "-" else ""
  let ne := stripZeros d.m.natAbs d.e
  if ne.2 = 0 then sign ++ toString ne.1
  else sign ++ toString (ne.1 / 10 ^ ne.2) ++ "." ++ padFrac ne.2 (toString (ne.1 % 10 ^ ne.2))

/-- NegAbs embeds `math.Abs(val) * minus1` of parseAmount: the magnitude
forced negative. -/
def Dec.negAbs (d : Dec) : Dec :=
  ⟨-(d.m.natAbs : Int), d.e⟩

/-- The configuration of cas2trn, from config.go.  Go `uint8` index fields are
embedded as `Nat` (the validator only compares them). -/
structure config where
  nFields : Nat
  amountI : Nat
  creditI : Nat
  dateI : Nat
  debitI : Nat
  memoI : Nat
  otherAcctI : Nat
  thisAcctI : Nat
  dateFormat : String
  thisAcct : String
deriving DecidableEq, Repr

/-- The configuration error kinds of config.go, in the order declared there. -/
inductive ConfigErr where
  | amountOpt
  | dateI
  | dateFormat
  | indexUnique
  | indexRange
  | memoI
  | nFieldsRange
  | thisAcctOpt
deriving DecidableEq, Repr

/-- The seven field indexes in the order areIndexesValid lists them:
amount, credit, date, debit, memo, otherAcct, thisAcct. -/
def config.idxList (cfg : config) : List Nat :=
  [cfg.amountI, cfg.creditI, cfg.dateI, cfg.debitI, cfg.memoI, cfg.otherAcctI, cfg.thisAcctI]

/-- The loop of areIndexesValid over the index list, carrying the seen-marker
array `inUse` (embedded as its indexing function): an index above `nFields` is
out of range; a zero index is skipped; a marked index is a duplicate;
otherwise the index is marked. -/
def checkIndexes (n : Nat) : List Nat → (Nat → Bool) → Option ConfigErr
  | [], _ => none
  | v :: rest, inUse =>
    if n < v then some .indexRange
    else if v = 0 then checkIndexes n rest inUse
    else if inUse v then some .indexUnique
    else checkIndexes n rest (fun x => if x = v then true else inUse x)

/-- AreIndexesValid from config.go: all indexes at most `nFields`, all
non-zero indexes unique. -/
def config.areIndexesValid (cfg : config) : Option ConfigErr :=
  checkIndexes cfg.nFields cfg.idxList (fun _ => false)

/-- AreOptionsValid from config.go: the this-account option check, then the
amount-source option check. -/
def config.areOptionsValid (cfg : config) : Option ConfigErr :=
  if cfg.thisAcct = "" ∧ cfg.thisAcctI = 0 then some .thisAcctOpt
  else if cfg.amountI = 0 ∧ (cfg.creditI = 0 ∨ cfg.debitI = 0) then some .amountOpt
  else none

/-- IsValid from config.go: date format, field-count range, index set, date
index, memo index, option combinations, in that order, first error wins.
`none` is Go's nil (valid). -/
def config.isValid (cfg : config) : Option ConfigErr :=
  if cfg.dateFormat = "" then some .dateFormat
  else if cfg.nFields < 3 ∨ 20 < cfg.nFields then some .nFieldsRange
  else
    match cfg.areIndexesValid with
    | some e => some e
    | none =>
      if cfg.dateI = 0 then some .dateI
      else if cfg.memoI = 0 then some .memoI
      else cfg.areOptionsValid

/-- Accumulated year, month and day while walking a date layout. -/
structure YMD where
  y : Option Nat
  m : Option Nat
  d : Option Nat
deriving DecidableEq, Repr

/-- Read exactly `k` digit characters into an accumulator. -/
def readN : Nat → Nat → List Char → Option (Nat × List Char)
  | 0, acc, vs => some (acc, vs)
  | _ + 1, _, [] => none
  | k + 1, acc, c :: vs =>
    if c.isDigit then readN k (acc * 10 + (c.toNat - 48)) vs else none

/-- Walk a Go date layout against a value: the reference fragments `2006`,
`01` and `02` read the year, month and day; any other layout character must
match the value literally. -/
def runLayout : List Char → List Char → YMD → Option YMD
  | '2' :: '0' :: '0' :: '6' :: lr, vs, acc =>
    match readN 4 0 vs with
    | none => none
    | some (yv, vr) => runLayout lr vr { acc with y := some yv }
  | '0' :: '1' :: lr, vs, acc =>
    match readN 2 0 vs with
    | none => none
    | some (mv, vr) => runLayout lr vr { acc with m := some mv }
  | '0' :: '2' :: lr, vs, acc =>
    match readN 2 0 vs with
    | none => none
    | some (dv, vr) => runLayout lr vr { acc with d := some dv }
  | c :: lr, v :: vr, acc => if c = v then runLayout lr vr acc else none
  | _ :: _, [], _ => none
  | [], [], acc => some acc
  | [], _ :: _, _ => none

/-- Zero-pad a number to two digits. -/
def pad2 (n : Nat) : String :=
  if n < 10 then "0" ++ toString n else toString n

/-- Zero-pad a number to four digits. -/
def pad4 (n : Nat) : String :=
  if n < 10 then "000" ++ toString n
  else if n < 100 then "00" ++ toString n
  else if n < 1000 then "0" ++ toString n
  else toString n

/-- Parse one date string against one layout and reformat it as `YYYY-MM-DD`
(`time.DateOnly`).  Embeds the `time.Parse` / `Format` pair of parseDate,
restricted to the numeric layouts this program uses. -/
def parseDateStr (fmt s : String) : Except Err String :=
  match runLayout fmt.toList s.toList ⟨none, none, none⟩ with
  | some ⟨some y, some mo, some dy⟩ =>
    if 1 ≤ mo ∧ mo ≤ 12 ∧ 1 ≤ dy ∧ dy ≤ 31 then
      .ok (pad4 y ++ "-" ++ pad2 mo ++ "-" ++ pad2 dy)
    else .error .dateParse
  | _ => .error .dateParse

/-- ParseDate from transact.go: parse the date column with the configured
format. -/
def parseDate (fields : List String) (cfg : config) : Except Err String :=
  parseDateStr cfg.dateFormat (fields.getD cfg.dateI "")

/-- The credit/debit arm of parseAmount: if the debit column is empty, parse
the credit column; otherwise the debit column's magnitude forced negative. -/
def amountFromCreditDebit (crt dbt : String) : Except Err Dec :=
  if dbt = "" then parseFloat64 crt
  else
    match parseFloat64 dbt with
    | .error e => .error e
    | .ok a => .ok a.negAbs

/-- ParseAmount from transact.go: if the amount index is set, parse that
column; otherwise derive the amount from the credit and debit columns. -/
def parseAmount (fields : List String) (cfg : config) : Except Err Dec :=
  if cfg.amountI ≠ 0 then parseFloat64 (fields.getD cfg.amountI "")
  else amountFromCreditDebit (fields.getD cfg.creditI "") (fields.getD cfg.debitI "")

/-- A canonical transaction, from transact.go, fields in declaration order. -/
structure transact where
  amount : Dec
  date : String
  memo : String
  otherAcct : String
  thisAcct : String
deriving DecidableEq, Repr

/-- String from transact.go: the transaction as one CSV line, fields
`date, thisAcct, otherAcct, memo, amount` joined by commas. -/
def transact.string (trn : transact) : String :=
  String.intercalate "," [trn.date, trn.thisAcct, trn.otherAcct, trn.memo, fmtDec trn.amount]

/-- Transact from transact.go: check the arity, prepend the empty placeholder,
then date, amount, zero-amount check, memo, other account and this account in
that order, first error wins.  The Go `trn.amount == zero` float comparison is
a zero-mantissa test on `Dec`. -/
def transact.transact (fields : List String) (cfg : config) : Except Err transact :=
  if fields.length ≠ cfg.nFields then .error .nFields
  else
    let flds := "" :: fields
    match parseDate flds cfg with
    | .error e => .error e
    | .ok date =>
      match parseAmount flds cfg with
      | .error e => .error e
      | .ok amt =>
        if amt.m = 0 then .error .zeroAmount
        else
          let memo := flds.getD cfg.memoI ""
          if memo = "" then .error .emptyMemo
          else
            let otherAcct := flds.getD cfg.otherAcctI ""
            if cfg.thisAcct ≠ "" then .ok ⟨amt, date, memo, otherAcct, cfg.thisAcct⟩
            else if flds.getD cfg.thisAcctI "" ≠ "" then
              .ok ⟨amt, date, memo, otherAcct, flds.getD cfg.thisAcctI ""⟩
            else .error .emptyThisAcct

/-- Ui2ui8 from cas2trn.go: a uint narrowed to uint8, zero if too large. -/
def ui2ui8 (value : Nat) : Nat :=
  if value ≤ 255 then value else 0

/-- The configuration assembly of parseConfig: the raw flag integers (the
field count and the array of seven index values, in the order amount, credit,
date, debit, memo, otherAcct, thisAcct) each narrowed through ui2ui8. -/
def mkConfig (nFlds : Nat) (vals : Fin 7 → Nat) (dateFormat thisAcct : String) : config :=
  { nFields := ui2ui8 nFlds
    amountI := ui2ui8 (vals 0)
    creditI := ui2ui8 (vals 1)
    dateI := ui2ui8 (vals 2)
    debitI := ui2ui8 (vals 3)
    memoI := ui2ui8 (vals 4)
    otherAcctI := ui2ui8 (vals 5)
    thisAcctI := ui2ui8 (vals 6)
    dateFormat := dateFormat
    thisAcct := thisAcct }

/-- The index-set loop re-modelled with the seen-marker array as an actual
21-entry boolean list and every array access bounds-checked: `none` marks an
access Go would fault on. -/
def checkIndexesChk (n : Nat) : List Nat → List Bool → Option (Option ConfigErr)
  | [], _ => some none
  | v :: rest, inUse =>
    if n < v then some (some .indexRange)
    else if v = 0 then checkIndexesChk n rest inUse
    else
      match inUse.get? v with
      | none => none
      | some b =>
        if b then some (some .indexUnique)
        else checkIndexesChk n rest (inUse.set v true)

/-- IsValid re-modelled with the bounds-checked index loop. -/
def isValidChk (cfg : config) : Option (Option ConfigErr) :=
  if cfg.dateFormat = "" then some (some .dateFormat)
  else if cfg.nFields < 3 ∨ 20 < cfg.nFields then some (some .nFieldsRange)
  else
    match checkIndexesChk cfg.nFields cfg.idxList (List.replicate 21 false) with
    | none => none
    | some (some e) => some (some e)
    | some none =>
      some (if cfg.dateI = 0 then some .dateI
            else if cfg.memoI = 0 then some .memoI
            else cfg.areOptionsValid)

/-- ParseDate with the row access bounds-checked. -/
def parseDateChk (fields : List String) (cfg : config) : Option (Except Err String) :=
  (fields.get? cfg.dateI).map (parseDateStr cfg.dateFormat)

/-- ParseAmount with every row access bounds-checked. -/
def parseAmountChk (fields : List String) (cfg : config) : Option (Except Err Dec) :=
  if cfg.amountI ≠ 0 then (fields.get? cfg.amountI).map parseFloat64
  else
    match fields.get? cfg.creditI, fields.get? cfg.debitI with
    | some crt, some dbt => some (amountFromCreditDebit crt dbt)
    | _, _ => none

/-- Transact with every row access bounds-checked: `none` marks an access Go
would fault on. -/
def transactChk (fields : List String) (cfg : config) : Option (Except Err transact) :=
  if fields.length ≠ cfg.nFields then some (.error .nFields)
  else
    let flds := "" :: fields
    match parseDateChk flds cfg with
    | none => none
    | some (.error e) => some (.error e)
    | some (.ok date) =>
      match parseAmountChk flds cfg with
      | none => none
      | some (.error e) => some (.error e)
      | some (.ok amt) =>
        if amt.m = 0 then some (.error .zeroAmount)
        else
          match flds.get? cfg.memoI with
          | none => none
          | some memo =>
            if memo = "" then some (.error .emptyMemo)
            else
              match flds.get? cfg.otherAcctI with
              | none => none
              | some otherAcct =>
                if cfg.thisAcct ≠ "" then some (.ok ⟨amt, date, memo, otherAcct, cfg.thisAcct⟩)
                else
                  match flds.get? cfg.thisAcctI with
                  | none => none
                  | some ta =>
                    if ta ≠ "" then some (.ok ⟨amt, date, memo, otherAcct, ta⟩)
                    else some (.error .emptyThisAcct)

/-- The index-set check as the specification's §4.1 step 3 words it: iterate
the seven indexes in the fixed order, report an index exceeding the field
count as out of range, a non-zero index already seen as a duplicate, and
otherwise mark the index seen; zero indexes never conflict. -/
def specCheckIndexes (n : Nat) : List Nat → List Nat → Option ConfigErr
  | [], _ => none
  | v :: rest, seen =>
    if n < v then some .indexRange
    else if v ≠ 0 ∧ v ∈ seen then some .indexUnique
    else specCheckIndexes n rest (if v = 0 then seen else v :: seen)

/-- The configuration validator as the specification's §4.1 words it: the
checks in the fixed order, first violation wins. -/
def specValidate (cfg : config) : Option ConfigErr :=
  if cfg.dateFormat = "" then some .dateFormat
  else if ¬(3 ≤ cfg.nFields ∧ cfg.nFields ≤ 20) then some .nFieldsRange
  else
    match specCheckIndexes cfg.nFields cfg.idxList [] with
    | some e => some e
    | none =>
      if cfg.dateI = 0 then some .dateI
      else if cfg.memoI = 0 then some .memoI
      else if cfg.thisAcct = "" ∧ cfg.thisAcctI = 0 then some .thisAcctOpt
      else if cfg.amountI = 0 ∧ (cfg.creditI = 0 ∨ cfg.debitI = 0) then some .amountOpt
      else none

/-- The seven §3 invariants of a column mapping. -/
def configInvariants (cfg : config) : Prop :=
  (3 ≤ cfg.nFields ∧ cfg.nFields ≤ 20) ∧
  (∀ v ∈ cfg.idxList, v ≠ 0 → v ≤ cfg.nFields) ∧
  cfg.idxList.Pairwise (fun a b => a ≠ 0 → b ≠ 0 → a ≠ b) ∧
  cfg.dateFormat ≠ "" ∧
  cfg.dateI ≠ 0 ∧ cfg.memoI ≠ 0 ∧
  (cfg.amountI ≠ 0 ∨ (cfg.creditI ≠ 0 ∧ cfg.debitI ≠ 0)) ∧
  (cfg.thisAcct ≠ "" ∨ cfg.thisAcctI ≠ 0)

/-- The Kiwibank full-statement fixture from the repository's tests. -/
def kbFull : config :=
  { nFields := 16
    amountI := 15, creditI := 13, dateI := 2, debitI := 14
    memoI := 3, otherAcctI := 12, thisAcctI := 1
    dateFormat := "02-01-2006", thisAcct := "" }

/-- The minimal-statement fixture from the repository's tests. -/
def mini : config :=
  { nFields := 3
    amountI := 3, creditI := 0, dateI := 1, debitI := 0
    memoI := 2, otherAcctI := 0, thisAcctI := 0
    dateFormat := "2006-01-02", thisAcct := "Mini" }

/-- The Police Credit Union fixture from the repository's tests: credit/debit
mode, amount index zero. -/
def pcu : config :=
  { nFields := 5
    amountI := 0, creditI := 4, dateI := 1, debitI := 3
    memoI := 2, otherAcctI := 0, thisAcctI := 0
    dateFormat := "02/01/2006", thisAcct := "Assets:Current:PCUS1" }

/-! ## Helper lemmas -/

theorem get?_of_lt (l : List String) (i : Nat) (h : i < l.length) :
    l.get? i = some (l.getD i "") := by
  rw [List.getD_eq_getElem _ _ h, List.get?_eq_getElem?, List.getElem?_eq_getElem h]

theorem checkIndexes_nil (n : Nat) (u : Nat → Bool) : checkIndexes n [] u = none := rfl

theorem checkIndexes_cons (n v : Nat) (rest : List Nat) (u : Nat → Bool) :
    checkIndexes n (v :: rest) u =
      if n < v then some .indexRange
      else if v = 0 then checkIndexes n rest u
      else if u v then some .indexUnique
      else checkIndexes n rest (fun x => if x = v then true else u x) := rfl

theorem checkIndexes_none_iff (n : Nat) (l : List Nat) :
    ∀ u : Nat → Bool,
      checkIndexes n l u = none ↔
        ((∀ v ∈ l, v ≤ n) ∧ (∀ v ∈ l, v ≠ 0 → u v = false) ∧
          l.Pairwise fun a b => a ≠ 0 → b ≠ 0 → a ≠ b) := by
  induction l with
  | nil => intro u; simp [checkIndexes_nil]
  | cons v rest ih =>
    intro u
    rw [checkIndexes_cons]
    simp only [List.forall_mem_cons, List.pairwise_cons]
    by_cases h1 : n < v
    · rw [if_pos h1]
      constructor
      · intro h; exact absurd h (by simp)
      · rintro ⟨⟨hv, -⟩, -⟩; omega
    · rw [if_neg h1]
      by_cases h2 : v = 0
      · subst h2
        rw [if_pos rfl, ih u]
        constructor
        · rintro ⟨ha, hb, hc⟩
          exact ⟨⟨by omega, ha⟩, ⟨fun h => absurd rfl h, hb⟩,
            ⟨fun a _ h0 => absurd rfl h0, hc⟩⟩
        · rintro ⟨⟨-, ha⟩, ⟨-, hb⟩, ⟨-, hc⟩⟩; exact ⟨ha, hb, hc⟩
      · rw [if_neg h2]
        by_cases h3 : u v = true
        · rw [if_pos h3]
          constructor
          · intro h; exact absurd h (by simp)
          · rintro ⟨-, ⟨hv0, -⟩, -⟩
            rw [hv0 h2] at h3; exact absurd h3 (by simp)
        · have h3f : u v = false := by
            cases hu : u v
            · rfl
            · exact absurd hu h3
          rw [if_neg h3, ih]
          constructor
          · rintro ⟨ha, hb, hc⟩
            refine ⟨⟨by omega, ha⟩, ⟨fun _ => h3f, fun w hw hw0 => ?_⟩,
              ⟨fun a haR h0 ha0 => ?_, hc⟩⟩
            · have := hb w hw hw0
              by_cases hwv : w = v
              · rw [if_pos hwv] at this; exact absurd this (by simp)
              · rw [if_neg hwv] at this; exact this
            · intro hva
              have := hb a haR ha0
              rw [if_pos hva.symm] at this
              exact absurd this (by simp)
          · rintro ⟨⟨-, ha⟩, ⟨-, hb⟩, ⟨hpw, hc⟩⟩
            refine ⟨ha, fun w hw hw0 => ?_, hc⟩
            by_cases hwv : w = v
            · exact absurd (hpw w hw h2 hw0).symm (by simp [hwv])
            · rw [if_neg hwv]; exact hb w hw hw0

theorem areOptionsValid_none_iff (cfg : config) :
    cfg.areOptionsValid = none ↔
      ((cfg.thisAcct ≠ "" ∨ cfg.thisAcctI ≠ 0) ∧
        (cfg.amountI ≠ 0 ∨ (cfg.creditI ≠ 0 ∧ cfg.debitI ≠ 0))) := by
  unfold config.areOptionsValid
  split_ifs with h1 h2
  · simp only [reduceCtorEq, false_iff]
    rintro ⟨h, -⟩; tauto
  · simp only [reduceCtorEq, false_iff]
    rintro ⟨-, h⟩; tauto
  · simp only [true_iff]
    constructor <;> tauto

theorem isValid_none_iff (cfg : config) : cfg.isValid = none ↔ configInvariants cfg := by
  unfold config.isValid configInvariants config.areIndexesValid
  by_cases hdf : cfg.dateFormat = ""
  · simp [hdf]
  · rw [if_neg hdf]
    by_cases hnf : cfg.nFields < 3 ∨ 20 < cfg.nFields
    · rw [if_pos hnf]
      simp only [reduceCtorEq, false_iff]
      rintro ⟨⟨h3, h20⟩, -⟩; omega
    · rw [if_neg hnf]
      cases hci : checkIndexes cfg.nFields cfg.idxList fun _ => false with
      | some e =>
        simp only [reduceCtorEq, false_iff]
        rintro ⟨⟨h3, -⟩, hb, hp, -⟩
        have hnone : checkIndexes cfg.nFields cfg.idxList (fun _ => false) = none := by
          rw [checkIndexes_none_iff]
          refine ⟨fun v hv => ?_, fun v _ _ => rfl, hp⟩
          rcases eq_or_ne v 0 with h | h
          · omega
          · exact hb v hv h
        rw [hnone] at hci
        exact absurd hci (by simp)
      | none =>
        rw [checkIndexes_none_iff] at hci
        obtain ⟨hle, -, hpw⟩ := hci
        by_cases hdi : cfg.dateI = 0
        · simp only [if_pos hdi, reduceCtorEq, false_iff]
          rintro ⟨-, -, -, -, hd, -⟩; exact hd hdi
        · rw [if_neg hdi]
          by_cases hmi : cfg.memoI = 0
          · simp only [if_pos hmi, reduceCtorEq, false_iff]
            rintro ⟨-, -, -, -, -, hm, -⟩; exact hm hmi
          · rw [if_neg hmi, areOptionsValid_none_iff]
            constructor
            · rintro ⟨hta, ham⟩
              exact ⟨by omega, fun v hv _ => hle v hv, hpw, hdf, hdi, hmi, ham, hta⟩
            · rintro ⟨-, -, -, -, -, -, ham, hta⟩
              exact ⟨hta, ham⟩

theorem specCheckIndexes_cons (n v : Nat) (rest seen : List Nat) :
    specCheckIndexes n (v :: rest) seen =
      if n < v then some .indexRange
      else if v ≠ 0 ∧ v ∈ seen then some .indexUnique
      else specCheckIndexes n rest (if v = 0 then seen else v :: seen) := rfl

theorem checkIndexes_eq_spec (n : Nat) (l : List Nat) :
    ∀ (u : Nat → Bool) (seen : List Nat),
      (∀ v, v ≠ 0 → (u v = true ↔ v ∈ seen)) →
      checkIndexes n l u = specCheckIndexes n l seen := by
  induction l with
  | nil => intro u seen _; rfl
  | cons v rest ih =>
    intro u seen hrel
    rw [checkIndexes_cons, specCheckIndexes_cons]
    by_cases h1 : n < v
    · rw [if_pos h1, if_pos h1]
    · rw [if_neg h1, if_neg h1]
      by_cases h2 : v = 0
      · subst h2
        rw [if_pos rfl, if_neg (by simp), if_pos rfl]
        exact ih u seen hrel
      · rw [if_neg h2]
        by_cases h3 : u v = true
        · rw [if_pos h3, if_pos ⟨h2, (hrel v h2).mp h3⟩]
        · have hvs : v ∉ seen := fun hm => h3 ((hrel v h2).mpr hm)
          rw [if_neg h3, if_neg (by tauto), if_neg h2]
          refine ih _ _ fun w hw0 => ?_
          by_cases hwv : w = v
          · subst hwv; simp
          · rw [if_neg hwv, List.mem_cons]
            rw [hrel w hw0]
            constructor
            · exact fun h => Or.inr h
            · rintro (h | h)
              · exact absurd h hwv
              · exact h

theorem isValid_eq_spec (cfg : config) : cfg.isValid = specValidate cfg := by
  unfold config.isValid specValidate config.areIndexesValid
  by_cases hdf : cfg.dateFormat = ""
  · rw [if_pos hdf, if_pos hdf]
  · rw [if_neg hdf, if_neg hdf]
    have hrange : (cfg.nFields < 3 ∨ 20 < cfg.nFields) ↔
        ¬(3 ≤ cfg.nFields ∧ cfg.nFields ≤ 20) := by omega
    by_cases hnf : cfg.nFields < 3 ∨ 20 < cfg.nFields
    · rw [if_pos hnf, if_pos (hrange.mp hnf)]
    · rw [if_neg hnf, if_neg (fun h => hnf (hrange.mpr h))]
      rw [checkIndexes_eq_spec cfg.nFields cfg.idxList (fun _ => false) [] (by simp)]
      cases specCheckIndexes cfg.nFields cfg.idxList [] with
      | some e => rfl
      | none =>
        by_cases hdi : cfg.dateI = 0
        · rw [if_pos hdi, if_pos hdi]
        · rw [if_neg hdi, if_neg hdi]
          by_cases hmi : cfg.memoI = 0
          · rw [if_pos hmi, if_pos hmi]
          · rw [if_neg hmi, if_neg hmi]
            unfold config.areOptionsValid
            rfl

theorem isValid_idx_le (cfg : config) (h : cfg.isValid = none) :
    ∀ v ∈ cfg.idxList, v ≤ cfg.nFields := by
  rw [isValid_none_iff] at h
  obtain ⟨-, hb, -⟩ := h
  intro v hv
  rcases eq_or_ne v 0 with h0 | h0
  · omega
  · exact hb v hv h0

theorem checkIndexesChk_eq (n : Nat) (l : List Nat) :
    ∀ (u : List Bool) (f : Nat → Bool), n ≤ 20 → u.length = 21 →
      (∀ v, v < 21 → u.get? v = some (f v)) →
      checkIndexesChk n l u = some (checkIndexes n l f) := by
  induction l with
  | nil => intros; rfl
  | cons v rest ih =>
    intro u f hn hlen hrel
    rw [checkIndexes_cons]
    show (if n < v then some (some ConfigErr.indexRange)
      else if v = 0 then checkIndexesChk n rest u
      else match u.get? v with
        | none => none
        | some b => if b then some (some .indexUnique)
            else checkIndexesChk n rest (u.set v true)) = _
    by_cases h1 : n < v
    · rw [if_pos h1, if_pos h1]
    · rw [if_neg h1, if_neg h1]
      by_cases h2 : v = 0
      · rw [if_pos h2, if_pos h2]
        exact ih u f hn hlen hrel
      · rw [if_neg h2, if_neg h2, hrel v (by omega)]
        show (if f v = true then some (some ConfigErr.indexUnique)
          else checkIndexesChk n rest (u.set v true)) = some _
        by_cases h3 : f v = true
        · rw [if_pos h3, if_pos h3]
        · rw [if_neg h3, if_neg h3]
          refine ih (u.set v true) (fun x => if x = v then true else f x) hn
            (by simp [hlen]) fun w hw => ?_
          by_cases hwv : w = v
          · subst hwv
            rw [List.get?_set_eq_of_lt true (by omega)]
            simp
          · rw [List.get?_set_ne true u (Ne.symm hwv), hrel w hw]
            simp [hwv]

theorem isValidChk_eq (cfg : config) : isValidChk cfg = some cfg.isValid := by
  unfold isValidChk config.isValid config.areIndexesValid
  by_cases hdf : cfg.dateFormat = ""
  · rw [if_pos hdf, if_pos hdf]
  · rw [if_neg hdf, if_neg hdf]
    by_cases hnf : cfg.nFields < 3 ∨ 20 < cfg.nFields
    · rw [if_pos hnf, if_pos hnf]
    · rw [if_neg hnf, if_neg hnf]
      rw [checkIndexesChk_eq cfg.nFields cfg.idxList (List.replicate 21 false)
        (fun _ => false) (by omega) (by simp) ?_]
      · cases checkIndexes cfg.nFields cfg.idxList fun _ => false with
        | some e => rfl
        | none => rfl
      · intro v hv
        rw [List.get?_eq_getElem?, List.getElem?_replicate, if_pos (by omega)]

theorem parseDateChk_eq (fields : List String) (cfg : config)
    (h : cfg.dateI < fields.length) :
    parseDateChk fields cfg = some (parseDate fields cfg) := by
  unfold parseDateChk parseDate
  rw [get?_of_lt _ _ h]
  rfl

theorem parseAmountChk_eq (fields : List String) (cfg : config)
    (ha : cfg.amountI < fields.length) (hc : cfg.creditI < fields.length)
    (hd : cfg.debitI < fields.length) :
    parseAmountChk fields cfg = some (parseAmount fields cfg) := by
  unfold parseAmountChk parseAmount
  by_cases h : cfg.amountI ≠ 0
  · rw [if_pos h, if_pos h, get?_of_lt _ _ ha]
    rfl
  · rw [if_neg h, if_neg h, get?_of_lt _ _ hc, get?_of_lt _ _ hd]

theorem transactChk_eq (cfg : config) (fields : List String)
    (hv : cfg.isValid = none) (hl : fields.length = cfg.nFields) :
    transactChk fields cfg = some (transact.transact fields cfg) := by
  have hidx := isValid_idx_le cfg hv
  have hflen : ("" :: fields).length = cfg.nFields + 1 := by simp [hl]
  have hdI : cfg.dateI < ("" :: fields).length := by
    have := hidx cfg.dateI (by simp [config.idxList]); omega
  have haI : cfg.amountI < ("" :: fields).length := by
    have := hidx cfg.amountI (by simp [config.idxList]); omega
  have hcI : cfg.creditI < ("" :: fields).length := by
    have := hidx cfg.creditI (by simp [config.idxList]); omega
  have hbI : cfg.debitI < ("" :: fields).length := by
    have := hidx cfg.debitI (by simp [config.idxList]); omega
  have hmI : cfg.memoI < ("" :: fields).length := by
    have := hidx cfg.memoI (by simp [config.idxList]); omega
  have hoI : cfg.otherAcctI < ("" :: fields).length := by
    have := hidx cfg.otherAcctI (by simp [config.idxList]); omega
  have htI : cfg.thisAcctI < ("" :: fields).length := by
    have := hidx cfg.thisAcctI (by simp [config.idxList]); omega
  have hne : ¬fields.length ≠ cfg.nFields := fun h => h hl
  simp only [transactChk, transact.transact]
  rw [if_neg hne, if_neg hne, parseDateChk_eq _ _ hdI]
  cases parseDate ("" :: fields) cfg with
  | error e => rfl
  | ok date =>
    rw [parseAmountChk_eq _ _ haI hcI hbI]
    cases parseAmount ("" :: fields) cfg with
    | error e => rfl
    | ok amt =>
      dsimp only
      by_cases hz : amt.m = 0
      · rw [if_pos hz, if_pos hz]
      · rw [if_neg hz, if_neg hz, get?_of_lt _ _ hmI]
        dsimp only
        by_cases hm : ("" :: fields).getD cfg.memoI "" = ""
        · rw [if_pos hm, if_pos hm]
        · rw [if_neg hm, if_neg hm, get?_of_lt _ _ hoI]
          dsimp only
          by_cases hta : cfg.thisAcct ≠ ""
          · rw [if_pos hta, if_pos hta]
          · rw [if_neg hta, if_neg hta, get?_of_lt _ _ htI]
            dsimp only
            by_cases htc : ("" :: fields).getD cfg.thisAcctI "" ≠ ""
            · rw [if_pos htc, if_pos htc]
            · rw [if_neg htc, if_neg htc]

/-! ## Claims -/

/-- C1: the specification claims that in credit/debit mode a row whose credit
and debit columns are both non-empty, or both empty, fails with the
credit-debit-conflict error.  The code defines no such error: evaluated on the
repository's own Police Credit Union fixture, the both-non-empty row is
accepted with amount -16.92 (the debit column wins and the credit column is
never consulted), and the both-empty row fails with the plain number-parse
error from parsing the empty credit column.  The first result also contradicts
the repository's own test TestUnhappyTransactAmount, which demands an error on
exactly this row, and the parseAmount doc comment, which promises the debit
field is used only when the credit field is empty. -/
theorem claim_C1_code_bug :
    transact.transact
        ["07/01/2020", "554PHP 18832946 Best of Health", "16.92", "-16.92", "265.01"] pcu =
      .ok ⟨⟨-1692, 2⟩, "2020-01-07", "554PHP 18832946 Best of Health", "",
        "Assets:Current:PCUS1"⟩ ∧
    transact.transact
        ["07/01/2020", "554PHP 18832946 Best of Health", "", "", "265.01"] pcu =
      .error .floatParse :=
  ⟨rfl, rfl⟩

/-- C2: under a validated mapping whose amount index is non-zero, the amount
comes from the amount column alone — parseAmount equals parseFloat64 of that
column, whatever the credit and debit columns hold — the empty column is a
parse failure, and a row of the right arity whose date parses but whose amount
column fails to parse makes transact fail with the amount-parse error. -/
theorem claim_C2 (cfg : config) (fields : List String)
    (hv : cfg.isValid = none) (hai : cfg.amountI ≠ 0)
    (hl : fields.length = cfg.nFields) :
    parseAmount ("" :: fields) cfg = parseFloat64 (("" :: fields).getD cfg.amountI "") ∧
    parseFloat64 "" = .error .floatParse ∧
    (∀ date, parseDate ("" :: fields) cfg = .ok date →
      parseFloat64 (("" :: fields).getD cfg.amountI "") = .error .floatParse →
      transact.transact fields cfg = .error .floatParse) := by
  have hpa : parseAmount ("" :: fields) cfg =
      parseFloat64 (("" :: fields).getD cfg.amountI "") := by
    unfold parseAmount
    rw [if_pos hai]
  refine ⟨hpa, rfl, fun date hd hp => ?_⟩
  simp only [transact.transact]
  rw [if_neg (fun h => h hl), hd]
  dsimp only
  rw [hpa, hp]

/-- Witness for C2: the minimal fixture with an unparseable amount column. -/
theorem claim_C2_witness :
    (mini.isValid = none ∧ mini.amountI ≠ 0 ∧
      (["2025-04-17", "memo", "xx"] : List String).length = mini.nFields) ∧
    (parseAmount ("" :: ["2025-04-17", "memo", "xx"]) mini =
        parseFloat64 (("" :: ["2025-04-17", "memo", "xx"]).getD mini.amountI "") ∧
      parseFloat64 "" = .error .floatParse ∧
      (∀ date, parseDate ("" :: ["2025-04-17", "memo", "xx"]) mini = .ok date →
        parseFloat64 (("" :: ["2025-04-17", "memo", "xx"]).getD mini.amountI "") =
          .error .floatParse →
        transact.transact ["2025-04-17", "memo", "xx"] mini = .error .floatParse)) :=
  ⟨⟨rfl, by decide, rfl⟩, claim_C2 mini ["2025-04-17", "memo", "xx"] rfl (by decide) rfl⟩

/-- C3: a mapping satisfying the seven §3 invariants is exactly one the
validator accepts, and isValid agrees everywhere with the specification's
fixed-order first-violation validator (empty date format, field count out of
range, the index-set check in the order amount, credit, date, debit, memo,
otherAcct, thisAcct with the range check before the duplicate check per index,
the date index, the memo index, then the this-account and amount-source
option checks). -/
theorem claim_C3 (cfg : config) :
    (cfg.isValid = none ↔ configInvariants cfg) ∧ cfg.isValid = specValidate cfg :=
  ⟨isValid_none_iff cfg, isValid_eq_spec cfg⟩

/-- C4: serialization is exactly the five fields date, thisAcct, otherAcct,
memo, amount in that order joined by commas with nothing appended, and the
amount renders in shortest decimal form with no forced trailing zeros: a
parsed 123.00 renders as 123 and a parsed 0.01 renders as 0.01. -/
theorem claim_C4 :
    (∀ trn : transact,
      trn.string =
        trn.date ++ "," ++ trn.thisAcct ++ "," ++ trn.otherAcct ++ "," ++ trn.memo ++ "," ++
          fmtDec trn.amount) ∧
    parseFloat64 "123.00" = .ok ⟨12300, 2⟩ ∧ fmtDec ⟨12300, 2⟩ = "123" ∧
    parseFloat64 "0.01" = .ok ⟨1, 2⟩ ∧ fmtDec ⟨1, 2⟩ = "0.01" :=
  ⟨fun _ => rfl, rfl, rfl, rfl, rfl⟩

/-- C5: in credit/debit mode a row whose credit column is empty and whose
debit column parses as d yields amount -abs(d), the parsed sign discarded and
the result forced negative; concretely the fixture rows with debit 16.92 and
debit -16.92 both produce the transaction with amount -16.92. -/
theorem claim_C5 :
    (∀ (cfg : config) (fields : List String) (d : Dec),
      cfg.isValid = none → cfg.amountI = 0 → fields.length = cfg.nFields →
      ("" :: fields).getD cfg.creditI "" = "" →
      ("" :: fields).getD cfg.debitI "" ≠ "" →
      parseFloat64 (("" :: fields).getD cfg.debitI "") = .ok d →
      parseAmount ("" :: fields) cfg = .ok d.negAbs) ∧
    transact.transact
        ["07/01/2020", "554PHP 18832946 Best of Health", "16.92", "", "265.01"] pcu =
      .ok ⟨⟨-1692, 2⟩, "2020-01-07", "554PHP 18832946 Best of Health", "",
        "Assets:Current:PCUS1"⟩ ∧
    transact.transact
        ["07/01/2020", "554PHP 18832946 Best of Health", "-16.92", "", "265.01"] pcu =
      .ok ⟨⟨-1692, 2⟩, "2020-01-07", "554PHP 18832946 Best of Health", "",
        "Assets:Current:PCUS1"⟩ := by
  refine ⟨fun cfg fields d hv ha hl hc hd hp => ?_, rfl, rfl⟩
  unfold parseAmount amountFromCreditDebit
  rw [if_neg (by simp [ha]), if_neg hd, hp]

/-- Witness for C5: the Police Credit Union fixture debit row. -/
theorem claim_C5_witness :
    (pcu.isValid = none ∧ pcu.amountI = 0 ∧
      (["07/01/2020", "554PHP 18832946 Best of Health", "16.92", "", "265.01"] :
        List String).length = pcu.nFields ∧
      ("" :: ["07/01/2020", "554PHP 18832946 Best of Health", "16.92", "", "265.01"]).getD
        pcu.creditI "" = "" ∧
      ("" :: ["07/01/2020", "554PHP 18832946 Best of Health", "16.92", "", "265.01"]).getD
        pcu.debitI "" ≠ "" ∧
      parseFloat64
        (("" :: ["07/01/2020", "554PHP 18832946 Best of Health", "16.92", "", "265.01"]).getD
          pcu.debitI "") = .ok ⟨1692, 2⟩) ∧
    parseAmount ("" :: ["07/01/2020", "554PHP 18832946 Best of Health", "16.92", "", "265.01"])
      pcu = .ok (Dec.negAbs ⟨1692, 2⟩) :=
  ⟨⟨rfl, rfl, rfl, rfl, by decide, rfl⟩,
    claim_C5.1 pcu ["07/01/2020", "554PHP 18832946 Best of Health", "16.92", "", "265.01"]
      ⟨1692, 2⟩ rfl rfl rfl rfl (by decide) rfl⟩

/-- C6: a row whose length differs from the configured field count fails with
the wrong-field-count error, whatever the row holds; the result does not
depend on any field of the row or on any later check. -/
theorem claim_C6 (cfg : config) (fields : List String)
    (h : fields.length ≠ cfg.nFields) :
    transact.transact fields cfg = .error .nFields := by
  simp only [transact.transact]
  rw [if_pos h]

/-- Witness for C6: a four-field row against the five-field fixture. -/
theorem claim_C6_witness :
    (["a", "b", "c", "d"] : List String).length ≠ pcu.nFields ∧
    transact.transact ["a", "b", "c", "d"] pcu = .error .nFields :=
  ⟨by decide, claim_C6 pcu ["a", "b", "c", "d"] (by decide)⟩

/-- C7: a row passing the arity and date checks whose extracted amount is
exactly zero fails with the zero-amount error, and no successfully produced
transaction ever carries a zero amount. -/
theorem claim_C7 :
    (∀ (cfg : config) (fields : List String) (date : String) (amt : Dec),
      fields.length = cfg.nFields →
      parseDate ("" :: fields) cfg = .ok date →
      parseAmount ("" :: fields) cfg = .ok amt →
      amt.m = 0 →
      transact.transact fields cfg = .error .zeroAmount) ∧
    (∀ (cfg : config) (fields : List String) (trn : transact),
      transact.transact fields cfg = .ok trn → trn.amount.m ≠ 0) := by
  constructor
  · intro cfg fields date amt hl hd ha hz
    simp only [transact.transact]
    rw [if_neg (fun h => h hl), hd]
    dsimp only
    rw [ha]
    dsimp only
    rw [if_pos hz]
  · intro cfg fields trn h
    simp only [transact.transact] at h
    by_cases harity : fields.length ≠ cfg.nFields
    · rw [if_pos harity] at h
      exact absurd h (by simp)
    · rw [if_neg harity] at h
      cases hd : parseDate ("" :: fields) cfg with
      | error e => rw [hd] at h; exact absurd h (by simp)
      | ok date =>
        rw [hd] at h
        dsimp only at h
        cases ha : parseAmount ("" :: fields) cfg with
        | error e => rw [ha] at h; exact absurd h (by simp)
        | ok amt =>
          rw [ha] at h
          dsimp only at h
          by_cases hz : amt.m = 0
          · rw [if_pos hz] at h
            exact absurd h (by simp)
          · rw [if_neg hz] at h
            by_cases hm : ("" :: fields).getD cfg.memoI "" = ""
            · rw [if_pos hm] at h
              exact absurd h (by simp)
            · rw [if_neg hm] at h
              by_cases hta : cfg.thisAcct ≠ ""
              · rw [if_pos hta] at h
                injection h with h'
                rw [h'.symm]
                exact hz
              · rw [if_neg hta] at h
                by_cases htc : ("" :: fields).getD cfg.thisAcctI "" ≠ ""
                · rw [if_pos htc] at h
                  injection h with h'
                  rw [h'.symm]
                  exact hz
                · rw [if_neg htc] at h
                  exact absurd h (by simp)

/-- Witness for C7: the minimal fixture with an amount column holding 0. -/
theorem claim_C7_witness :
    ((["2025-04-17", "memo", "0"] : List String).length = mini.nFields ∧
      parseDate ("" :: ["2025-04-17", "memo", "0"]) mini = .ok "2025-04-17" ∧
      parseAmount ("" :: ["2025-04-17", "memo", "0"]) mini = .ok ⟨0, 0⟩ ∧
      (⟨0, 0⟩ : Dec).m = 0) ∧
    transact.transact ["2025-04-17", "memo", "0"] mini = .error .zeroAmount :=
  ⟨⟨rfl, rfl, rfl, rfl⟩,
    claim_C7.1 mini ["2025-04-17", "memo", "0"] "2025-04-17" ⟨0, 0⟩ rfl rfl rfl rfl⟩

/-- C8: on a row passing the earlier checks, a non-empty configured
this-account literal always wins, even when the this-account column is also
set and non-empty; with an empty literal the column at the this-account index
is used, and an empty column value fails with the empty-this-account error. -/
theorem claim_C8 (cfg : config) (fields : List String) (date : String) (amt : Dec)
    (hl : fields.length = cfg.nFields)
    (hd : parseDate ("" :: fields) cfg = .ok date)
    (ha : parseAmount ("" :: fields) cfg = .ok amt)
    (hz : amt.m ≠ 0)
    (hm : ("" :: fields).getD cfg.memoI "" ≠ "") :
    (cfg.thisAcct ≠ "" →
      transact.transact fields cfg =
        .ok ⟨amt, date, ("" :: fields).getD cfg.memoI "",
          ("" :: fields).getD cfg.otherAcctI "", cfg.thisAcct⟩) ∧
    (cfg.thisAcct = "" → ("" :: fields).getD cfg.thisAcctI "" ≠ "" →
      transact.transact fields cfg =
        .ok ⟨amt, date, ("" :: fields).getD cfg.memoI "",
          ("" :: fields).getD cfg.otherAcctI "", ("" :: fields).getD cfg.thisAcctI ""⟩) ∧
    (cfg.thisAcct = "" → ("" :: fields).getD cfg.thisAcctI "" = "" →
      transact.transact fields cfg = .error .emptyThisAcct) := by
  have hstep : transact.transact fields cfg =
      (if cfg.thisAcct ≠ "" then
        .ok ⟨amt, date, ("" :: fields).getD cfg.memoI "",
          ("" :: fields).getD cfg.otherAcctI "", cfg.thisAcct⟩
      else if ("" :: fields).getD cfg.thisAcctI "" ≠ "" then
        .ok ⟨amt, date, ("" :: fields).getD cfg.memoI "",
          ("" :: fields).getD cfg.otherAcctI "", ("" :: fields).getD cfg.thisAcctI ""⟩
      else .error .emptyThisAcct) := by
    simp only [transact.transact]
    rw [if_neg (fun h => h hl), hd]
    dsimp only
    rw [ha]
    dsimp only
    rw [if_neg hz, if_neg hm]
  refine ⟨fun hta => ?_, fun hta htc => ?_, fun hta htc => ?_⟩
  · rw [hstep, if_pos hta]
  · rw [hstep, if_neg (fun h => h hta), if_pos htc]
  · rw [hstep, if_neg (fun h => h hta), if_neg (fun h => h htc)]

/-- Witness for C8: the minimal fixture row, where the literal Mini wins. -/
theorem claim_C8_witness :
    ((["2025-04-17", "memo", ".01"] : List String).length = mini.nFields ∧
      parseDate ("" :: ["2025-04-17", "memo", ".01"]) mini = .ok "2025-04-17" ∧
      parseAmount ("" :: ["2025-04-17", "memo", ".01"]) mini = .ok ⟨1, 2⟩ ∧
      (⟨1, 2⟩ : Dec).m ≠ 0 ∧
      ("" :: ["2025-04-17", "memo", ".01"]).getD mini.memoI "" ≠ "") ∧
    (mini.thisAcct ≠ "" →
      transact.transact ["2025-04-17", "memo", ".01"] mini =
        .ok ⟨⟨1, 2⟩, "2025-04-17",
          ("" :: ["2025-04-17", "memo", ".01"]).getD mini.memoI "",
          ("" :: ["2025-04-17", "memo", ".01"]).getD mini.otherAcctI "", mini.thisAcct⟩) :=
  ⟨⟨rfl, rfl, rfl, by decide, by decide⟩,
    (claim_C8 mini ["2025-04-17", "memo", ".01"] "2025-04-17" ⟨1, 2⟩ rfl rfl rfl
      (by decide) (by decide)).1⟩

/-- C9: a configuration integer above 255 is narrowed to zero before
validation: ui2ui8 sends it to zero, an index flag holding such a value
builds exactly the configuration built from zero (so it acts as an absent
field and can never be the index reported out of range), and a field count
above 255 is reported as out of range (being zero), not as too large. -/
theorem claim_C9 :
    (∀ v : Nat, 255 < v → ui2ui8 v = 0) ∧
    (∀ (nf : Nat) (vals : Fin 7 → Nat) (df ta : String) (i : Fin 7) (v : Nat),
      255 < v →
      mkConfig nf (Function.update vals i v) df ta =
        mkConfig nf (Function.update vals i 0) df ta) ∧
    (∀ (nf : Nat) (vals : Fin 7 → Nat) (df ta : String),
      255 < nf → df ≠ "" →
      (mkConfig nf vals df ta).isValid = some .nFieldsRange) := by
  refine ⟨fun v hv => by unfold ui2ui8; rw [if_neg (by omega)], ?_, ?_⟩
  · intro nf vals df ta i v hv
    have key : ∀ j : Fin 7,
        ui2ui8 (Function.update vals i v j) = ui2ui8 (Function.update vals i 0 j) := by
      intro j
      by_cases hji : j = i
      · subst hji
        rw [Function.update_same, Function.update_same]
        unfold ui2ui8
        rw [if_neg (by omega), if_pos (by omega)]
      · rw [Function.update_noteq hji, Function.update_noteq hji]
    unfold mkConfig
    rw [key 0, key 1, key 2, key 3, key 4, key 5, key 6]
  · intro nf vals df ta hnf hdf
    have h0 : ui2ui8 nf = 0 := by unfold ui2ui8; rw [if_neg (by omega)]
    unfold config.isValid
    rw [if_neg (show ¬(mkConfig nf vals df ta).dateFormat = "" from hdf),
      if_pos (Or.inl (show (mkConfig nf vals df ta).nFields < 3 by
        show ui2ui8 nf < 3
        omega))]

/-- Witness for C9: the raw value 300 narrows to zero, and a field count of
300 is reported as out of range. -/
theorem claim_C9_witness :
    (255 < 300 ∧ ui2ui8 300 = 0) ∧
    (mkConfig 300 (fun _ => 0) "x" "").isValid = some .nFieldsRange :=
  ⟨⟨by omega, claim_C9.1 300 (by omega)⟩,
    claim_C9.2.2 300 (fun _ => 0) "x" "" (by omega) (by decide)⟩

/-- C10: no sequence access is out of bounds under the stated preconditions:
the bounds-checked validator agrees with isValid on every configuration (the
field-count range check keeps the 21-entry seen array in bounds), and on a
validated configuration and a row of the right arity the bounds-checked
transformer agrees with transact (every column read, through the prepended
placeholder, is within the row). -/
theorem claim_C10 :
    (∀ cfg : config, isValidChk cfg = some cfg.isValid) ∧
    (∀ (cfg : config) (fields : List String),
      cfg.isValid = none → fields.length = cfg.nFields →
      transactChk fields cfg = some (transact.transact fields cfg)) :=
  ⟨isValidChk_eq, fun cfg fields hv hl => transactChk_eq cfg fields hv hl⟩

/-- Witness for C10: the Police Credit Union fixture and its debit row. -/
theorem claim_C10_witness :
    (pcu.isValid = none ∧
      (["07/01/2020", "554PHP 18832946 Best of Health", "16.92", "", "265.01"] :
        List String).length = pcu.nFields) ∧
    transactChk ["07/01/2020", "554PHP 18832946 Best of Health", "16.92", "", "265.01"] pcu =
      some (transact.transact
        ["07/01/2020", "554PHP 18832946 Best of Health", "16.92", "", "265.01"] pcu) :=
  ⟨⟨rfl, rfl⟩,
    claim_C10.2 pcu ["07/01/2020", "554PHP 18832946 Best of Health", "16.92", "", "265.01"]
      rfl rfl⟩
